import Mathlib

set_option maxRecDepth 8000

/-!
Verification of the prompt-construction and response-extraction pipeline of the
Shopify/EyePop plugin.

The definitions below are a shallow embedding of the TypeScript source:

* `buildComprehensivePrompt`, `assembledCategories` embed the private method
  `buildComprehensivePrompt` of `src/app/lib/eyepop-client.ts` (lines 94-165).
  JavaScript strings are Lean `String`s; an optional/undefined string parameter is
  `Option String`; the JS truthiness test `if (productType)` is "present and
  non-empty".  The source pushes onto a `categories` array inside a sequence of
  `if` blocks and finally joins with `", "` inside a template literal that begins
  with a newline and indents every line with nine spaces.
* `hasPersonQuestions`, `createPersonAnalysisPromptText`, `createTestPop` embed the
  Pop-configuration generator of `src/test/test-pop-config.js` (functions
  `createTestPop`, `createPersonAnalysisPop`, `createComprehensivePop`), the only
  place in the repository where a person-analysis template switch exists.
* The extractor definitions further below embed the private method
  `parseVisualIntelligenceResponse` of `src/app/lib/eyepop-client.ts`
  (lines 191-391).

String scanning primitives (`strTrim`, `strToLower`, `strSplitAny`, ...) are
defined structurally over character lists so that every definition evaluates by
kernel reduction.  The whitespace class `jsWhitespace` covers space, tab, line
feed, carriage return, vertical tab and form feed; the JS regex class `\s`
additionally matches some rare Unicode spaces (NBSP, BOM, ...) that play no
role in the claims.  Lowercasing is ASCII, as every mapped category is ASCII.
-/

/-- JS truthiness of an optional string parameter: defined and non-empty. -/
def optStrTruthy : Option String → Bool
  | none => false
  | some s => !s.isEmpty

/-- The whitespace characters of the JS regex class used by the source
(space, tab, line feed, carriage return, vertical tab, form feed). -/
def jsWhitespace (c : Char) : Bool :=
  c == ' ' || c == '\t' || c == '\n' || c == '\r' || c == '\x0b' || c == '\x0c'

/-- JS `String.prototype.trim`: drop leading and trailing whitespace. -/
def strTrim (s : String) : String :=
  String.mk (((s.data.dropWhile jsWhitespace).reverse.dropWhile jsWhitespace).reverse)

/-- ASCII lowercasing of one character. -/
def asciiToLower (c : Char) : Char :=
  if 'A' ≤ c ∧ c ≤ 'Z' then Char.ofNat (c.toNat + 32) else c

/-- JS `String.prototype.toLowerCase`, restricted to ASCII letters. -/
def strToLower (s : String) : String :=
  String.mk (s.data.map asciiToLower)

/-- Splitting worker: cut the character list at every separator, keeping empty
pieces, with the accumulator holding the current piece reversed. -/
def splitCharsGo (p : Char → Bool) : List Char → List Char → List (List Char)
  | [], acc => [acc.reverse]
  | c :: rest, acc =>
    if p c then acc.reverse :: splitCharsGo p rest [] else splitCharsGo p rest (c :: acc)

/-- JS `String.prototype.split` against a one-character-class separator
(used by the source with the class of comma and semicolon, and with a plain
newline): empty pieces between adjacent separators are kept. -/
def strSplitAny (s : String) (p : Char → Bool) : List String :=
  (splitCharsGo p s.data []).map String.mk

/-- JS `split` on a newline separator. -/
def strSplitNl (s : String) : List String :=
  strSplitAny s (fun c => c == '\n')

/-- Category list assembled by `buildComprehensivePrompt`
(`eyepop-client.ts` lines 104-147): successive `categories.push(...)` calls,
guarded by `if (productType)`, the `questions.forEach` loop, and the six
`checkboxQuestions.includes(...)` tests in source order. -/
def assembledCategories (questions : List String) (productType : Option String)
    (checkboxQuestions : List String) : List String :=
  let categories : List String := []
  let categories := match productType with
    | some pt => if !pt.isEmpty then categories ++ ["product type (this is a " ++ pt ++ " product)"] else categories
    | none => categories
  let categories := if 0 < questions.length then categories ++ questions else categories
  let categories := if checkboxQuestions.contains "productTitle" then categories ++ ["product title (compelling, SEO-friendly product title)"] else categories
  let categories := if checkboxQuestions.contains "productDescription" then categories ++ ["product description (detailed description suitable for e-commerce listing)"] else categories
  let categories := if checkboxQuestions.contains "colorVariant" then categories ++ ["color variants (primary colors and color variants visible)"] else categories
  let categories := if checkboxQuestions.contains "seoDescription" then categories ++ ["SEO description (SEO-optimized meta description under 160 characters)"] else categories
  let categories := if checkboxQuestions.contains "productTags" then categories ++ ["product tags (5-10 relevant product tags and keywords, comma-separated)"] else categories
  let categories := if checkboxQuestions.contains "altText" then categories ++ ["alt text (descriptive alt text for accessibility)"] else categories
  categories

/-- The prompt built by `buildComprehensivePrompt` (`eyepop-client.ts` lines
149-164).  The template literal in the source starts with a newline and indents
each of its three lines with nine spaces; the first two lines end with a
trailing space before the newline. -/
def buildComprehensivePrompt (questions : List String) (productType : Option String)
    (checkboxQuestions : List String) : String :=
  let categoriesString := String.intercalate ", " (assembledCategories questions productType checkboxQuestions)
  "\n         Analyze the image provided and determine the categories of: " ++ categoriesString ++ ". \n         Report the values of the categories as classLabels. Be very careful to place these values correctly. \n         If you are unable to provide a category with a value then set its classLabel to null."

/-- Spec-side category list, written from the words of claim C3: the
product-type category first when the product type is non-empty, then the user
questions verbatim in input order, then the fixed phrase of each enabled content
option in declaration order ProductTitle, ProductDescription, ColorVariant,
SeoDescription, ProductTags, AltText. -/
def specCategoriesList (questions : List String) (productType : Option String)
    (checkboxQuestions : List String) : List String :=
  (match productType with
    | some pt => if !pt.isEmpty then ["product type (this is a " ++ pt ++ " product)"] else []
    | none => []) ++
  questions ++
  (if checkboxQuestions.contains "productTitle" then ["product title (compelling, SEO-friendly product title)"] else []) ++
  (if checkboxQuestions.contains "productDescription" then ["product description (detailed description suitable for e-commerce listing)"] else []) ++
  (if checkboxQuestions.contains "colorVariant" then ["color variants (primary colors and color variants visible)"] else []) ++
  (if checkboxQuestions.contains "seoDescription" then ["SEO description (SEO-optimized meta description under 160 characters)"] else []) ++
  (if checkboxQuestions.contains "productTags" then ["product tags (5-10 relevant product tags and keywords, comma-separated)"] else []) ++
  (if checkboxQuestions.contains "altText" then ["alt text (descriptive alt text for accessibility)"] else [])

/-- The four person-oriented checkbox option names
(`test-pop-config.js`, `hasPersonQuestions` predicate). -/
def personFlagNames : List String := ["ageRange", "gender", "fashionStyle", "outfitDescription"]

/-- Embeds `hasPersonQuestions` of `test-pop-config.js`: some selected checkbox
option is one of the four person options. -/
def hasPersonQuestions (checkboxQuestions : List String) : Bool :=
  checkboxQuestions.any (fun q => personFlagNames.contains q)

/-- The person-analysis preamble sentence of claim C1 (it appears verbatim in
`createPersonAnalysisPop` of `test-pop-config.js`). -/
def personPreamble : String :=
  "For any people in the image, analyze: Age (report as range, ex. 20s), Gender (Male/Female), Fashion style (Casual, Formal, Bohemian, Streetwear, Vintage, Chic, Sporty, Edgy), and describe their outfit."

/-- Checkbox-derived prompt sentences pushed by `createPersonAnalysisPop`
(`test-pop-config.js`), in source order. -/
def personCheckboxPrompts (checkboxQuestions : List String) : List String :=
  (if checkboxQuestions.contains "productTitle" then ["Generate a compelling product title for this item"] else []) ++
  (if checkboxQuestions.contains "productDescription" then ["Generate a detailed product description for this item"] else []) ++
  (if checkboxQuestions.contains "colorVariant" then ["Identify the primary colors and any color variants visible in this product"] else []) ++
  (if checkboxQuestions.contains "seoDescription" then ["Generate an SEO-optimized meta description for this product"] else []) ++
  (if checkboxQuestions.contains "productTags" then ["Generate relevant product tags and keywords for this item"] else []) ++
  (if checkboxQuestions.contains "altText" then ["Generate descriptive alt text for this product image for accessibility"] else []) ++
  (if checkboxQuestions.contains "ageRange" then ["Determine the age range of the person (report as range, ex. 20s)"] else []) ++
  (if checkboxQuestions.contains "gender" then ["Identify the gender (Male/Female)"] else []) ++
  (if checkboxQuestions.contains "fashionStyle" then ["Identify the fashion style (Casual, Formal, Bohemian, Streetwear, Vintage, Chic, Sporty, Edgy)"] else []) ++
  (if checkboxQuestions.contains "outfitDescription" then ["Describe their outfit in detail"] else [])

/-- Prompt text built by `createPersonAnalysisPop` in `test-pop-config.js`:
fixed header, the person preamble when a person option is selected, an
"Additionally:" section joining the user and checkbox prompts with ". ",
and a fixed closing sentence. -/
def createPersonAnalysisPromptText (prompts : List String) (checkboxQuestions : List String) : String :=
  let combinedPrompts := prompts ++ personCheckboxPrompts checkboxQuestions
  let promptText := "Analyze the image provided and determine the following:"
  let promptText := if hasPersonQuestions checkboxQuestions then promptText ++ (" " ++ personPreamble) else promptText
  let promptText := if 0 < combinedPrompts.length then promptText ++ (" Additionally: " ++ String.intercalate ". " combinedPrompts) else promptText
  promptText ++ " Report the values of the categories as classLabels. If you are unable to provide a category with a value then set its classLabel to null."

/-- Labelled prompt objects produced by `createComprehensivePop` in
`test-pop-config.js`: user questions (labelled by themselves), an unshifted
product-type prompt, then the six checkbox prompt objects. -/
def comprehensivePromptObjects (prompts : List String) (productType : Option String)
    (checkboxQuestions : List String) : List (String × String) :=
  let userPrompts := prompts.map (fun p => (p, p))
  let userPrompts := match productType with
    | some pt => if !pt.isEmpty then ("Analyze this " ++ pt ++ " product", "main_product") :: userPrompts else userPrompts
    | none => userPrompts
  userPrompts ++
  ((if checkboxQuestions.contains "productTitle" then [("Generate a compelling product title for this item", "product_title")] else []) ++
   (if checkboxQuestions.contains "productDescription" then [("Generate a detailed product description for this item", "product_description")] else []) ++
   (if checkboxQuestions.contains "colorVariant" then [("Identify the primary colors and any color variants visible in this product", "color_variant")] else []) ++
   (if checkboxQuestions.contains "seoDescription" then [("Generate an SEO-optimized meta description for this product", "seo_description")] else []) ++
   (if checkboxQuestions.contains "productTags" then [("Generate relevant product tags and keywords for this item", "product_tags")] else []) ++
   (if checkboxQuestions.contains "altText" then [("Generate descriptive alt text for this product image for accessibility", "alt_text")] else []))

/-- Result of the test-harness Pop generator: either the single person-analysis
prompt text, or the list of comprehensive prompt objects. -/
inductive TestPop where
  | person : String → TestPop
  | comprehensive : List (String × String) → TestPop
deriving DecidableEq, Repr

/-- Selects which generator runs, mirroring `createTestPop` of
`test-pop-config.js`. -/
def createTestPop (questions : List String) (productType : Option String)
    (checkboxQuestions : List String) : TestPop :=
  if hasPersonQuestions checkboxQuestions then
    TestPop.person (createPersonAnalysisPromptText questions checkboxQuestions)
  else
    TestPop.comprehensive (comprehensivePromptObjects questions productType checkboxQuestions)

/-- Discriminates the person-analysis branch of a `TestPop`. -/
def TestPop.isPersonPop : TestPop → Bool
  | .person _ => true
  | .comprehensive _ => false

/-- Substring occurrence test over character lists: `pat` occurs contiguously in
the second argument. -/
def listContains (pat : List Char) : List Char → Bool
  | [] => pat.isPrefixOf []
  | c :: t => pat.isPrefixOf (c :: t) || listContains pat t

/-- Substring occurrence test on strings. -/
def containsSubstrStr (s pat : String) : Bool :=
  listContains pat.data s.data

/-- Prefix test on strings via their character lists. -/
def startsWithStr (s pre : String) : Bool :=
  pre.data.isPrefixOf s.data

/-- Value stored in the extracted-fields record: a string, a tag array, a
number (the price), or an explicit null.  JS numbers are modelled as rationals,
which is exact for every value `parseFloat` can produce from the claims'
decimal inputs. -/
inductive FieldValue where
  | vStr : String → FieldValue
  | vArr : List String → FieldValue
  | vNum : ℚ → FieldValue
  | vNull : FieldValue
deriving DecidableEq, Repr

/-- JS truthiness of a stored field value: the empty string, `null` and `0` are
falsy; every other stored value (including an empty array) is truthy. -/
def jsTruthyField : FieldValue → Bool
  | .vStr s => !s.isEmpty
  | .vArr _ => true
  | .vNum q => decide (q ≠ 0)
  | .vNull => false

/-- JS object property assignment on an association list with unique keys:
replace in place when the key exists, otherwise append. -/
def jsSet : List (String × FieldValue) → String → FieldValue → List (String × FieldValue)
  | [], k, v => [(k, v)]
  | p :: t, k, v => if p.1 == k then (p.1, v) :: t else p :: jsSet t k v

/-- JS object property read: the value under the key, if present. -/
def getField : List (String × FieldValue) → String → Option FieldValue
  | [], _ => none
  | p :: t, k => if p.1 == k then some p.2 else getField t k

/-- One item of the vision service's structured reply (`classItem` in the
source): a possibly missing category name and a possibly missing class label.
A JSON `null` label and an absent label both read back as absent. -/
structure ClassItem where
  category : Option String
  classLabel : Option String
deriving DecidableEq, Repr

/-- One element of `processedResults`: the keys of the reply object that the
extractor reads (`classes` and `text`); all other keys are never consulted. -/
structure EPResult where
  classes : Option (List ClassItem)
  text : Option String
deriving DecidableEq, Repr

/-- Collapses each maximal run of whitespace to a single `fill` character,
as the JS `replace` with a one-or-more whitespace pattern does.  The Boolean
argument records whether the previous character was part of a run. -/
def collapseRunsGo (fill : Char) : List Char → Bool → List Char
  | [], _ => []
  | c :: rest, lastWs =>
    if jsWhitespace c then
      (if lastWs then collapseRunsGo fill rest true else fill :: collapseRunsGo fill rest true)
    else c :: collapseRunsGo fill rest false

/-- String version of `collapseRunsGo`, starting outside a run. -/
def collapseRuns (fill : Char) (s : String) : String :=
  String.mk (collapseRunsGo fill s.data false)

/-- Characters the sanitization step keeps: the JS character class of lowercase
ASCII letters, digits and underscore. -/
def isKeyChar (c : Char) : Bool :=
  if ('a' ≤ c ∧ c ≤ 'z') ∨ ('0' ≤ c ∧ c ≤ '9') ∨ c = '_' then true else false

/-- Sanitization fallback of `createFieldMapping`: whitespace runs become
underscores, then every character outside `[a-z0-9_]` is stripped. -/
def sanitizeKey (normalized : String) : String :=
  String.mk ((collapseRuns '_' normalized).data.filter isKeyChar)

/-- The static synonym table of `createFieldMapping`
(`eyepop-client.ts` lines 222-255), verbatim. -/
def mappingsTable : List (String × String) :=
  [("product type", "product_type"),
   ("focus object", "focus_object"),
   ("product title", "product_title"),
   ("title", "product_title"),
   ("product name", "product_title"),
   ("name", "product_title"),
   ("product description", "product_description"),
   ("description", "product_description"),
   ("product details", "product_description"),
   ("details", "product_description"),
   ("color", "color_variant"),
   ("color variant", "color_variant"),
   ("color variants", "color_variant"),
   ("variant", "color_variant"),
   ("product color", "color_variant"),
   ("seo description", "seo_description"),
   ("seo", "seo_description"),
   ("meta description", "seo_description"),
   ("product tags", "product_tags"),
   ("tags", "product_tags"),
   ("keywords", "product_tags"),
   ("product keywords", "product_tags"),
   ("alt text", "alt_text"),
   ("alt", "alt_text"),
   ("image alt text", "alt_text"),
   ("image description", "alt_text"),
   ("price", "price"),
   ("product price", "price"),
   ("cost", "price"),
   ("amount", "price"),
   ("size", "size"),
   ("chest size", "chest_size")]

/-- Embeds `createFieldMapping` (`eyepop-client.ts` lines 212-266): blank input
resolves to `unknown_field`; otherwise the category is lowercased, trimmed and
whitespace-collapsed, looked up in the synonym table, and failing that
sanitized, with `unknown_field` again covering an empty sanitization. -/
def createFieldMapping (categoryNameFromAI : String) : String :=
  if strTrim categoryNameFromAI == "" then "unknown_field"
  else
    let normalized := collapseRuns ' ' (strTrim (strToLower categoryNameFromAI))
    match List.lookup normalized mappingsTable with
    | some mappedField => mappedField
    | none =>
      let sanitized := sanitizeKey normalized
      if sanitized == "" then "unknown_field" else sanitized

/-- Digit list to natural number, most significant first. -/
def digitsToNat (ds : List Char) : ℕ :=
  ds.foldl (fun acc c => 10 * acc + (c.toNat - '0'.toNat)) 0

/-- Model of JS `parseFloat` on strings over the alphabet the price path can
produce (digits, dot, minus; a plus sign is accepted for completeness but the
stripping step removes it): an optional sign, then the longest
digits-dot-digits prefix; no parsable digit yields NaN, modelled as `none`.
Exponents cannot occur because `e` is stripped beforehand. -/
def parseFloatQ (s : String) : Option ℚ :=
  let cs := s.data
  let signAndRest : Bool × List Char :=
    match cs with
    | '-' :: rest => (true, rest)
    | '+' :: rest => (false, rest)
    | _ => (false, cs)
  let intDigits := signAndRest.2.takeWhile Char.isDigit
  let afterInt := signAndRest.2.drop intDigits.length
  let fracDigits : List Char :=
    match afterInt with
    | '.' :: r => r.takeWhile Char.isDigit
    | _ => []
  if intDigits.isEmpty && fracDigits.isEmpty then none
  else
    let mag : ℚ := (digitsToNat intDigits : ℚ) + (digitsToNat fracDigits : ℚ) / ((10 : ℚ) ^ fracDigits.length)
    some (if signAndRest.1 then -mag else mag)

/-- The price-stripping step: keep only digits, dot and minus
(the JS replace with the negated class of digits, dot, minus). -/
def stripNonPrice (s : String) : String :=
  String.mk (s.data.filter (fun c => c.isDigit || c == '.' || c == '-'))

/-- Loop body of the structured path of `parseVisualIntelligenceResponse`
(`eyepop-client.ts` lines 284-343).  The accumulator carries the
`extractedData` object and the `combinedText` string.  Items whose category is
missing or empty are skipped; a class label equal to the string "null" (or an
absent label) stores an explicit null; `product_tags` values are split, trimmed
and filtered into an array; `price` values are stripped and parsed, falling
back to `price_text`; every processed item appends a "category: value" line. -/
def processClassItem (acc : List (String × FieldValue) × String) (classItem : ClassItem) :
    List (String × FieldValue) × String :=
  match classItem.category with
  | none => acc
  | some cat =>
    if cat == "" then acc
    else
      let categoryNameFromAI := cat
      let valueFromAI : Option String := classItem.classLabel
      let fieldKey := createFieldMapping categoryNameFromAI
      if fieldKey == "" then acc
      else
        let extractedValue : Option String :=
          match valueFromAI with
          | some v => if v == "null" then none else some v
          | none => none
        match extractedValue with
        | some v =>
          let data :=
            if fieldKey == "product_tags" then
              jsSet acc.1 "product_tags" (FieldValue.vArr (((strSplitAny v (fun c => c == ',' || c == ';')).map strTrim).filter (fun tag => !tag.isEmpty)))
            else if fieldKey == "price" then
              let priceString := stripNonPrice v
              match parseFloatQ priceString with
              | some priceValue => jsSet acc.1 "price" (FieldValue.vNum priceValue)
              | none => jsSet acc.1 "price_text" (FieldValue.vStr v)
            else jsSet acc.1 fieldKey (FieldValue.vStr v)
          (data, acc.2 ++ categoryNameFromAI ++ ": " ++ v ++ "\n")
        | none =>
          (jsSet acc.1 fieldKey FieldValue.vNull, acc.2 ++ categoryNameFromAI ++ ": null\n")

/-- Structured path over the first result (`eyepop-client.ts` lines 280-343):
iterate the class items when `classes` is present and non-empty. -/
def structuredExtract (firstResult : EPResult) : List (String × FieldValue) × String :=
  match firstResult.classes with
  | some classes => if 0 < classes.length then classes.foldl processClassItem ([], "") else ([], "")
  | none => ([], "")

/-- Match of the fallback line pattern (key, colon, optional whitespace, rest):
the key is the non-empty text before the first colon and the value the
non-empty remainder, both trimmed; lines without a colon, with an empty key or
with nothing after the colon do not match. -/
def parseLine (line : String) : Option (String × String) :=
  let keyPart := line.data.takeWhile (fun c => c != ':')
  if keyPart.length == line.data.length then none
  else if keyPart.isEmpty then none
  else
    let rest := line.data.drop (keyPart.length + 1)
    if rest.isEmpty then none
    else some (strTrim (String.mk keyPart), strTrim (String.mk rest))

/-- Loop body of the fallback path (`eyepop-client.ts` lines 362-374): a
matching line stores its value under the mapped field key only when that key is
absent or holds a falsy value. -/
def fallbackStep (m : List (String × FieldValue)) (line : String) : List (String × FieldValue) :=
  match parseLine line with
  | none => m
  | some kv =>
    let fieldKey := createFieldMapping kv.1
    if fieldKey == "" then m
    else
      match getField m fieldKey with
      | some existing => if jsTruthyField existing then m else jsSet m fieldKey (FieldValue.vStr kv.2)
      | none => jsSet m fieldKey (FieldValue.vStr kv.2)

/-- Extraction over the first result: the structured path, the combined text
(set when its trim is non-empty), and the fallback path entered only when the
structured path stored nothing and the result carries a non-empty text, in
which case the text field is the raw result text and the non-blank lines are
folded through `fallbackStep` (`eyepop-client.ts` lines 268-379). -/
def extractCore (firstResult : EPResult) : List (String × FieldValue) × String :=
  let sd := structuredExtract firstResult
  let textFromClasses := if !(strTrim sd.2).isEmpty then strTrim sd.2 else ""
  if sd.1.isEmpty then
    match firstResult.text with
    | some t =>
      if !t.isEmpty then
        (((strSplitNl t).filter (fun l => !(strTrim l).isEmpty)).foldl fallbackStep sd.1, t)
      else (sd.1, textFromClasses)
    | none => (sd.1, textFromClasses)
  else (sd.1, textFromClasses)

/-- The final parsed response (`parsedResponse` in the source): the raw result
list, the combined or raw text, and the extracted-fields object. -/
structure ParsedResponse where
  rawResults : List EPResult
  text : String
  extractedData : List (String × FieldValue)
deriving DecidableEq, Repr

/-- Embeds `parseVisualIntelligenceResponse` (`eyepop-client.ts` lines
191-391): with no results, the empty response; otherwise only the first result
feeds the text and extracted data. -/
def parseVisualIntelligenceResponse (processedResults : List EPResult) : ParsedResponse :=
  match processedResults with
  | [] => { rawResults := processedResults, text := "", extractedData := [] }
  | firstResult :: _ =>
    let core := extractCore firstResult
    { rawResults := processedResults, text := core.2, extractedData := core.1 }


/-! Helper lemmas. -/

lemma isPrefixOf_append_of (l1 l2 m : List Char) (h : l1.isPrefixOf l2 = true) :
    l1.isPrefixOf (l2 ++ m) = true := by
  induction l1 generalizing l2 with
  | nil => simp [List.isPrefixOf]
  | cons a as ih =>
    cases l2 with
    | nil => simp [List.isPrefixOf] at h
    | cons b bs =>
      simp only [List.cons_append, List.isPrefixOf, Bool.and_eq_true] at h ⊢
      exact ⟨h.1, ih bs h.2⟩

lemma listContains_of_isPrefixOf {pat l : List Char} (h : pat.isPrefixOf l = true) :
    listContains pat l = true := by
  cases l with
  | nil => simp [listContains, h]
  | cons c t => simp [listContains, h]

lemma listContains_append_right (pat l m : List Char) (h : listContains pat l = true) :
    listContains pat (l ++ m) = true := by
  induction l with
  | nil =>
    rw [List.nil_append]
    simp only [listContains] at h
    apply listContains_of_isPrefixOf
    cases pat with
    | nil => simp [List.isPrefixOf]
    | cons c cs => simp [List.isPrefixOf] at h
  | cons c t ih =>
    rw [List.cons_append]
    simp only [listContains, Bool.or_eq_true] at h ⊢
    cases h with
    | inl hp =>
      left
      have := isPrefixOf_append_of pat (c :: t) m hp
      simpa using this
    | inr hc => right; exact ih hc

lemma contains_filter_of_pred (l : List String) (p : String → Bool) (x : String)
    (hx : p x = true) : (l.filter p).contains x = l.contains x := by
  rw [Bool.eq_iff_iff]
  constructor
  · intro h
    have hm : x ∈ l.filter p := by simpa using h
    have hx2 : x ∈ l := (List.mem_filter.mp hm).1
    simpa using hx2
  · intro h
    have hm : x ∈ l := by simpa using h
    have hx2 : x ∈ l.filter p := List.mem_filter.mpr ⟨hm, hx⟩
    simpa using hx2

lemma ite_push (c : Prop) [Decidable c] (l m : List String) :
    (if c then l ++ m else l) = l ++ (if c then m else []) := by
  split <;> simp

lemma ite_length_self (qs : List String) : (if 0 < qs.length then qs else []) = qs := by
  cases qs <;> simp

lemma getField_jsSet_self (m : List (String × FieldValue)) (k : String) (v : FieldValue) :
    getField (jsSet m k v) k = some v := by
  induction m with
  | nil => simp [jsSet, getField]
  | cons p t ih =>
    cases h : (p.1 == k)
    · simp [jsSet, getField, h, ih]
    · simp [jsSet, getField, h]

lemma getField_jsSet_ne (m : List (String × FieldValue)) (k k2 : String) (v : FieldValue)
    (h : k2 ≠ k) : getField (jsSet m k v) k2 = getField m k2 := by
  induction m with
  | nil =>
    have hkk : (k == k2) = false := by rw [beq_eq_false_iff_ne]; exact fun he => h he.symm
    simp [jsSet, getField, hkk]
  | cons p t ih =>
    cases hp : (p.1 == k)
    · simp [jsSet, getField, hp, ih]
    · have hpk : p.1 = k := by rwa [beq_iff_eq] at hp
      have hpk2 : (p.1 == k2) = false := by
        rw [beq_eq_false_iff_ne, hpk]
        exact fun he => h he.symm
      simp [jsSet, getField, hp, hpk2]

lemma fallbackStep_preserves (m : List (String × FieldValue)) (line : String) (k : String)
    (val : FieldValue) (hget : getField m k = some val) (htr : jsTruthyField val = true) :
    getField (fallbackStep m line) k = some val := by
  rw [fallbackStep]
  cases hpl : parseLine line with
  | none => exact hget
  | some kv =>
    cases hke : (createFieldMapping kv.1 == "")
    · cases hg : getField m (createFieldMapping kv.1) with
      | none =>
        have hne : k ≠ createFieldMapping kv.1 := by
          intro he
          rw [he, hg] at hget
          cases hget
        simp only [hke, hg]
        simp only [Bool.false_eq_true, if_false]
        rw [getField_jsSet_ne _ _ _ _ hne]
        exact hget
      | some ex =>
        cases htr2 : jsTruthyField ex
        · by_cases he : k = createFieldMapping kv.1
          · exfalso
            rw [he, hg] at hget
            injection hget with hv
            rw [hv] at htr2
            rw [htr] at htr2
            cases htr2
          · simp only [hke, hg, htr2]
            simp only [Bool.false_eq_true, if_false]
            rw [getField_jsSet_ne _ _ _ _ he]
            exact hget
        · simp only [hke, hg, htr2]
          simp only [Bool.false_eq_true, if_false, if_true]
          exact hget
    · simp only [hke, if_true]
      exact hget

lemma fallbackFold_preserves (lines : List String) :
    ∀ (m : List (String × FieldValue)) (k : String) (val : FieldValue),
      getField m k = some val → jsTruthyField val = true →
      getField (lines.foldl fallbackStep m) k = some val := by
  induction lines with
  | nil => intro m k val hget _; exact hget
  | cons l t ih =>
    intro m k val hget htr
    rw [List.foldl_cons]
    exact ih _ _ _ (fallbackStep_preserves m l k val hget htr) htr

lemma lookup_table_ne_empty (k v : String) :
    ∀ (l : List (String × String)), (∀ p ∈ l, p.2 ≠ "") → List.lookup k l = some v → v ≠ "" := by
  intro l
  induction l with
  | nil => intro _ h; cases h
  | cons a t ih =>
    intro hl h
    obtain ⟨a1, a2⟩ := a
    rw [List.lookup] at h
    cases hka : (k == a1)
    · rw [hka] at h
      exact ih (fun p hp => hl p (List.mem_cons_of_mem _ hp)) h
    · rw [hka] at h
      injection h with hv
      rw [← hv]
      exact hl (a1, a2) (List.mem_cons_self _ _)

lemma createFieldMapping_ne_empty (c : String) : createFieldMapping c ≠ "" := by
  rw [createFieldMapping]
  cases ht : (strTrim c == "")
  · simp only [Bool.false_eq_true, if_false]
    cases hlk : List.lookup (collapseRuns ' ' (strTrim (strToLower c))) mappingsTable with
    | some mf =>
      simp only [hlk]
      exact lookup_table_ne_empty _ _ mappingsTable (by decide) hlk
    | none =>
      simp only [hlk]
      cases hs : (sanitizeKey (collapseRuns ' ' (strTrim (strToLower c))) == "")
      · simp only [hs, Bool.false_eq_true, if_false]
        rw [ne_eq, ← beq_iff_eq, hs]
        simp
      · simp only [hs, if_true]
        decide
  · simp only [if_true]
    decide

lemma strDataPrefixMono (s1 s2 t : String) (h : s1.data <+: s2.data) :
    s1.data <+: (s2 ++ t).data := by
  rw [String.data_append]
  exact h.trans (List.prefix_append _ _)

/-! Claim theorems. -/

/-- Claim C1, counterexample: in the production prompt builder
(`buildComprehensivePrompt` of `eyepop-client.ts`) enabling all four person
options does not switch to the person-analysis template: the output does not
contain the person preamble and is identical to the output with no options
enabled. -/
theorem c1_person_mode_cex :
    containsSubstrStr (buildComprehensivePrompt [] none ["ageRange", "gender", "fashionStyle", "outfitDescription"]) personPreamble = false ∧
    buildComprehensivePrompt [] none ["ageRange", "gender", "fashionStyle", "outfitDescription"] =
      buildComprehensivePrompt [] none [] := by
  exact ⟨by decide, by decide⟩

/-- Claim C1, amended: the production prompt builder ignores the four person
options entirely (its output is unchanged when they are removed from the
selection), and the template switch described by the claim lives in the test
harness Pop generator `createTestPop`, which picks the person-analysis prompt
exactly when one of the four person options is enabled, in which case the
generated prompt text contains the person preamble. -/
theorem c1_person_mode :
    (∀ (qs : List String) (pt : Option String) (cb : List String),
        buildComprehensivePrompt qs pt cb =
          buildComprehensivePrompt qs pt (cb.filter (fun q => !personFlagNames.contains q))) ∧
    (∀ (qs : List String) (pt : Option String) (cb : List String),
        (createTestPop qs pt cb).isPersonPop = hasPersonQuestions cb) ∧
    (∀ (qs cb : List String), hasPersonQuestions cb = true →
        containsSubstrStr (createPersonAnalysisPromptText qs cb) personPreamble = true) := by
  refine ⟨?_, ?_, ?_⟩
  · intro qs pt cb
    have hfilter : ∀ x : String, personFlagNames.contains x = false →
        (cb.filter (fun q => !personFlagNames.contains q)).contains x = cb.contains x := by
      intro x hx
      exact contains_filter_of_pred cb _ x (by rw [hx]; rfl)
    have hcats : assembledCategories qs pt (cb.filter (fun q => !personFlagNames.contains q)) =
        assembledCategories qs pt cb := by
      simp only [assembledCategories]
      rw [hfilter "productTitle" (by decide), hfilter "productDescription" (by decide),
        hfilter "colorVariant" (by decide), hfilter "seoDescription" (by decide),
        hfilter "productTags" (by decide), hfilter "altText" (by decide)]
    simp only [buildComprehensivePrompt, hcats]
  · intro qs pt cb
    cases h : hasPersonQuestions cb <;> simp [createTestPop, h, TestPop.isPersonPop]
  · intro qs cb h
    have hbase : listContains personPreamble.data
        (("Analyze the image provided and determine the following:" ++ (" " ++ personPreamble)).data) = true := by
      decide
    simp only [createPersonAnalysisPromptText, h, if_true]
    rw [containsSubstrStr]
    split
    · rw [String.data_append]
      apply listContains_append_right
      rw [String.data_append]
      apply listContains_append_right
      exact hbase
    · rw [String.data_append]
      apply listContains_append_right
      exact hbase

/-- Claim C1, witness: with the person option ageRange enabled, the test
harness person-analysis prompt text contains the person preamble. -/
theorem c1_person_mode_witness :
    containsSubstrStr (createPersonAnalysisPromptText [] ["ageRange"]) personPreamble = true :=
  c1_person_mode.2.2 [] ["ageRange"] (by decide)

/-- Claim C2, counterexample: on the Scenario A input the returned prompt does
not start with "Analyze the image provided" - the template literal puts a
newline and nine spaces of indentation first. -/
theorem c2_prompt_cex :
    startsWithStr (buildComprehensivePrompt ["what is the collar style"] (some "t-shirt") ["productTitle", "colorVariant"]) "Analyze the image provided" = false := by
  decide

/-- Claim C2, amended: for every input the prompt is exactly the claimed fixed
template, except that it is preceded by a newline plus nine spaces of
indentation and that each of its three lines is separated by a trailing space,
a newline and nine spaces; consequently the prompt starts with the indentation
followed by "Analyze the image provided". -/
theorem c2_prompt_exact_text :
    ∀ (qs : List String) (pt : Option String) (cb : List String),
      buildComprehensivePrompt qs pt cb =
        "\n         Analyze the image provided and determine the categories of: " ++
          String.intercalate ", " (assembledCategories qs pt cb) ++
          ". \n         Report the values of the categories as classLabels. Be very careful to place these values correctly. \n         If you are unable to provide a category with a value then set its classLabel to null." ∧
      ("\n         Analyze the image provided".data <+: (buildComprehensivePrompt qs pt cb).data) := by
  intro qs pt cb
  constructor
  · rfl
  · have h0 : ("\n         Analyze the image provided" : String).data <+:
        ("\n         Analyze the image provided and determine the categories of: " : String).data := by
      refine ⟨" and determine the categories of: ".data, ?_⟩
      decide
    show ("\n         Analyze the image provided" : String).data <+:
      (("\n         Analyze the image provided and determine the categories of: " ++
          String.intercalate ", " (assembledCategories qs pt cb)) ++
        ". \n         Report the values of the categories as classLabels. Be very careful to place these values correctly. \n         If you are unable to provide a category with a value then set its classLabel to null.").data
    exact strDataPrefixMono _ _ _ (strDataPrefixMono _ _ _ h0)

/-- Claim C3: the assembled category list is exactly the product-type category
(when the product type is non-empty), then the user questions verbatim in input
order, then the fixed phrases of the enabled content options in declaration
order ProductTitle, ProductDescription, ColorVariant, SeoDescription,
ProductTags, AltText; on the Scenario A input this yields exactly the four
expected categories in order. -/
theorem c3_category_order :
    (∀ (qs : List String) (pt : Option String) (cb : List String),
        assembledCategories qs pt cb = specCategoriesList qs pt cb) ∧
    assembledCategories ["what is the collar style"] (some "t-shirt") ["productTitle", "colorVariant"] =
      ["product type (this is a t-shirt product)", "what is the collar style",
        "product title (compelling, SEO-friendly product title)",
        "color variants (primary colors and color variants visible)"] := by
  refine ⟨?_, by decide⟩
  intro qs pt cb
  simp only [assembledCategories, specCategoriesList, List.nil_append, ite_push]
  simp only [ite_length_self, List.append_assoc]

/-- Claim C4: a class item with a non-empty category whose classLabel is the
literal string "null" makes the extractor store an explicit null (never the
string "null") under the item's resolved field key. -/
theorem c4_null_label (acc : List (String × FieldValue) × String) (classItem : ClassItem)
    (c : String) (h1 : classItem.category = some c) (h2 : c ≠ "")
    (h3 : classItem.classLabel = some "null") :
    (processClassItem acc classItem).1 = jsSet acc.1 (createFieldMapping c) FieldValue.vNull ∧
    getField (processClassItem acc classItem).1 (createFieldMapping c) = some FieldValue.vNull := by
  have hck : (c == "") = false := by rw [beq_eq_false_iff_ne]; exact h2
  have hfk : (createFieldMapping c == "") = false := by
    rw [beq_eq_false_iff_ne]; exact createFieldMapping_ne_empty c
  constructor
  · simp [processClassItem, h1, h3, hck, hfk]
  · simp [processClassItem, h1, h3, hck, hfk, getField_jsSet_self]

/-- Claim C4, witness: the item with category "Product Title" and classLabel
"null" stores an explicit null under product_title. -/
theorem c4_null_label_witness :
    getField (processClassItem ([], "") { category := some "Product Title", classLabel := some "null" }).1
        (createFieldMapping "Product Title") = some FieldValue.vNull :=
  (c4_null_label ([], "") { category := some "Product Title", classLabel := some "null" }
    "Product Title" rfl (by decide) rfl).2

/-- Claim C5, counterexample: inside the fallback path a field key that is
already populated can be overwritten.  The line "title: " populates
product_title with the empty string; adding the line "Title: Blue Jacket"
afterwards replaces that populated value, because the overwrite guard tests JS
truthiness and the empty string is falsy. -/
theorem c5_fallback_guard_cex :
    getField (parseVisualIntelligenceResponse [{ classes := none, text := some "title: " }]).extractedData
        "product_title" = some (FieldValue.vStr "") ∧
    getField (parseVisualIntelligenceResponse [{ classes := none, text := some "title: \nTitle: Blue Jacket" }]).extractedData
        "product_title" = some (FieldValue.vStr "Blue Jacket") := by
  exact ⟨by decide, by decide⟩

/-- Claim C5, amended: the fallback path is entered only when the structured
path produced zero fields and the reply carries a non-empty text block (when
the structured path stored anything, the final extracted data is exactly the
structured data and the fallback never modifies it; with no text there is no
data at all), and within the fallback a field key populated with a truthy
(non-empty) value is never overwritten by a later line - only a key holding
the empty string can be replaced.  A product_title set by the structured path
is therefore never replaced by the fallback path. -/
theorem c5_fallback_guard :
    (∀ (r : EPResult) (rest : List EPResult), (structuredExtract r).1 ≠ [] →
        (parseVisualIntelligenceResponse (r :: rest)).extractedData = (structuredExtract r).1) ∧
    (∀ (r : EPResult) (rest : List EPResult), (structuredExtract r).1 = [] →
        (r.text = none ∨ r.text = some "") →
        (parseVisualIntelligenceResponse (r :: rest)).extractedData = []) ∧
    (∀ (lines : List String) (m : List (String × FieldValue)) (k : String) (val : FieldValue),
        getField m k = some val → jsTruthyField val = true →
        getField (lines.foldl fallbackStep m) k = some val) := by
  refine ⟨?_, ?_, ?_⟩
  · intro r rest h
    show (extractCore r).1 = (structuredExtract r).1
    have hne : (structuredExtract r).1.isEmpty = false := by
      cases hsd : (structuredExtract r).1 with
      | nil => exact absurd hsd h
      | cons a t => rfl
    simp [extractCore, hne]
  · intro r rest h ht
    show (extractCore r).1 = []
    have hemp : (structuredExtract r).1.isEmpty = true := by rw [h]; rfl
    rcases ht with h2 | h2 <;>
      simp [extractCore, hemp, h2, h, show ("" : String).isEmpty = true from rfl,
        show strTrim "" = "" from rfl]
  · intro lines m k val hget htr
    exact fallbackFold_preserves lines m k val hget htr

/-- Claim C5, witness: a reply whose structured path stores product_title keeps
exactly the structured data even though a text block with a matching "Title:"
line is present. -/
theorem c5_fallback_guard_witness :
    (parseVisualIntelligenceResponse
        [{ classes := some [{ category := some "Product Title", classLabel := some "X" }],
           text := some "Title: Y" }]).extractedData =
      (structuredExtract
        { classes := some [{ category := some "Product Title", classLabel := some "X" }],
          text := some "Title: Y" }).1 :=
  c5_fallback_guard.1 _ [] (by decide)

/-- Claim C6: a structured item resolving to product_tags with a non-null
string value is split on commas and semicolons, each part trimmed, empty parts
dropped, and the result stored as an array. -/
theorem c6_tags_split (acc : List (String × FieldValue) × String) (classItem : ClassItem)
    (c v : String) (h1 : classItem.category = some c) (h2 : c ≠ "")
    (hm : createFieldMapping c = "product_tags")
    (h3 : classItem.classLabel = some v) (hv : v ≠ "null") :
    getField (processClassItem acc classItem).1 "product_tags" =
      some (FieldValue.vArr (((strSplitAny v (fun ch => ch == ',' || ch == ';')).map strTrim).filter
        (fun tag => !tag.isEmpty))) := by
  have hck : (c == "") = false := by rw [beq_eq_false_iff_ne]; exact h2
  have hvn : (v == "null") = false := by rw [beq_eq_false_iff_ne]; exact hv
  simp [processClassItem, h1, h3, hck, hvn, hm, getField_jsSet_self]

/-- Claim C6, witness (Scenario C): classLabel "red, blue, green" under
category "Product Tags" yields the tag array ["red", "blue", "green"]. -/
theorem c6_tags_split_witness :
    getField (processClassItem ([], "") { category := some "Product Tags", classLabel := some "red, blue, green" }).1
        "product_tags" = some (FieldValue.vArr ["red", "blue", "green"]) := by
  have h := c6_tags_split ([], "") { category := some "Product Tags", classLabel := some "red, blue, green" }
    "Product Tags" "red, blue, green" rfl (by decide) (by decide) rfl (by decide)
  rw [h]
  decide

/-- Claim C7: a structured item resolving to price with a non-null value is
stripped of every character except digits, dot and minus and parsed as a
number; on success the number is stored under price, on failure the original
raw value is stored under price_text. -/
theorem c7_price_parse (acc : List (String × FieldValue) × String) (classItem : ClassItem)
    (c v : String) (h1 : classItem.category = some c) (h2 : c ≠ "")
    (hm : createFieldMapping c = "price")
    (h3 : classItem.classLabel = some v) (hv : v ≠ "null") :
    (∀ q : ℚ, parseFloatQ (stripNonPrice v) = some q →
        getField (processClassItem acc classItem).1 "price" = some (FieldValue.vNum q)) ∧
    (parseFloatQ (stripNonPrice v) = none →
        getField (processClassItem acc classItem).1 "price_text" = some (FieldValue.vStr v)) := by
  have hck : (c == "") = false := by rw [beq_eq_false_iff_ne]; exact h2
  have hvn : (v == "null") = false := by rw [beq_eq_false_iff_ne]; exact hv
  constructor
  · intro q hq
    simp [processClassItem, h1, h3, hck, hvn, hm, hq, getField_jsSet_self]
  · intro hq
    simp [processClassItem, h1, h3, hck, hvn, hm, hq, getField_jsSet_self]

/-- Claim C7, witness (Scenario D): classLabel "$19.99" under category "Price"
yields the numeric price 19.99. -/
theorem c7_price_parse_witness :
    getField (processClassItem ([], "") { category := some "Price", classLabel := some "$19.99" }).1
        "price" = some (FieldValue.vNum (1999 / 100)) := by
  have hq : parseFloatQ (stripNonPrice "$19.99") = some (1999 / 100) := by
    rw [show stripNonPrice "$19.99" = "19.99" from by decide]
    rw [show parseFloatQ "19.99" =
        some ((digitsToNat ['1', '9'] : ℚ) + (digitsToNat ['9', '9'] : ℚ) / (10 : ℚ) ^ (2 : ℕ))
      from rfl]
    rw [show digitsToNat ['1', '9'] = 19 from by decide,
      show digitsToNat ['9', '9'] = 99 from by decide, Option.some.injEq]
    push_cast
    norm_num
  exact (c7_price_parse ([], "") { category := some "Price", classLabel := some "$19.99" }
    "Price" "$19.99" rfl (by decide) (by decide) rfl (by decide)).1 (1999 / 100) hq

/-- Claim C8: extraction is a total function; an empty result list, a first
result without classes or with an empty classes list, and a missing or empty
text block all return normally with empty extracted fields and empty combined
text - "no data" is a value, not an error. -/
theorem c8_no_data :
    ((parseVisualIntelligenceResponse []).extractedData = [] ∧
      (parseVisualIntelligenceResponse []).text = "") ∧
    (∀ (r : EPResult) (rest : List EPResult),
        (r.classes = none ∨ r.classes = some []) → (r.text = none ∨ r.text = some "") →
        (parseVisualIntelligenceResponse (r :: rest)).extractedData = [] ∧
        (parseVisualIntelligenceResponse (r :: rest)).text = "") := by
  refine ⟨⟨rfl, rfl⟩, ?_⟩
  intro r rest hc ht
  have hs : structuredExtract r = ([], "") := by
    rcases hc with h | h <;> simp [structuredExtract, h]
  constructor
  · show (extractCore r).1 = []
    rcases ht with h | h <;>
      simp [extractCore, hs, h, show ("" : String).isEmpty = true from rfl,
        show strTrim "" = "" from rfl]
  · show (extractCore r).2 = ""
    rcases ht with h | h <;>
      simp [extractCore, hs, h, show ("" : String).isEmpty = true from rfl,
        show strTrim "" = "" from rfl]

/-- Claim C8, witness: a single result with neither classes nor text yields
the empty record and empty text. -/
theorem c8_no_data_witness :
    (parseVisualIntelligenceResponse [{ classes := none, text := none }]).extractedData = [] ∧
    (parseVisualIntelligenceResponse [{ classes := none, text := none }]).text = "" :=
  c8_no_data.2 { classes := none, text := none } [] (Or.inl rfl) (Or.inl rfl)

/-- Claim C9: a class item whose category is missing or empty is skipped - the
loop body returns the accumulator unchanged, so it contributes no field and no
combined-text line, and removing it from any position of the classes list
leaves the fold result unchanged. -/
theorem c9_skip_invalid :
    (∀ (acc : List (String × FieldValue) × String) (classItem : ClassItem),
        (classItem.category = none ∨ classItem.category = some "") →
        processClassItem acc classItem = acc) ∧
    (∀ (init : List (String × FieldValue) × String) (xs ys : List ClassItem)
        (classItem : ClassItem),
        (classItem.category = none ∨ classItem.category = some "") →
        (xs ++ classItem :: ys).foldl processClassItem init =
          (xs ++ ys).foldl processClassItem init) := by
  have hstep : ∀ (acc : List (String × FieldValue) × String) (classItem : ClassItem),
      (classItem.category = none ∨ classItem.category = some "") →
      processClassItem acc classItem = acc := by
    intro acc classItem h
    rcases h with h | h <;> simp [processClassItem, h]
  refine ⟨hstep, ?_⟩
  intro init xs ys classItem h
  rw [List.foldl_append, List.foldl_append, List.foldl_cons, hstep _ _ h]

/-- Claim C9, witness: a category-less item inserted among valid items leaves
the fold unchanged. -/
theorem c9_skip_invalid_witness :
    (([⟨some "Title", some "Hat"⟩] : List ClassItem) ++
        (⟨none, some "x"⟩ : ClassItem) :: ([] : List ClassItem)).foldl
        processClassItem ([], "") =
      (([⟨some "Title", some "Hat"⟩] : List ClassItem) ++ ([] : List ClassItem)).foldl
        processClassItem ([], "") :=
  c9_skip_invalid.2 ([], "") [⟨some "Title", some "Hat"⟩] [] ⟨none, some "x"⟩ (Or.inl rfl)

/-- Claim C10: the extracted fields and combined text depend only on the first
element of the processed result list - later elements are never read for
either projection. -/
theorem c10_first_result_only :
    ∀ (r : EPResult) (rest : List EPResult),
      (parseVisualIntelligenceResponse (r :: rest)).extractedData =
        (parseVisualIntelligenceResponse [r]).extractedData ∧
      (parseVisualIntelligenceResponse (r :: rest)).text =
        (parseVisualIntelligenceResponse [r]).text :=
  fun _ _ => ⟨rfl, rfl⟩
